import Mathlib

/-!
Shallow embedding of the Eventify event-management backend
(Express + Mongoose routes in `routes/events.js`, schemas in
`models/Event.js` and `models/User.js`).

Conventions of the embedding:
* Mongo ObjectIds are modelled as natural numbers.
* JavaScript `Date` instants are modelled as integer milliseconds since
  the Unix epoch; calendar-day arithmetic works on integer day numbers.
  Following the specification, the server clock is taken to run in UTC.
* A Mongo collection is a `List` of documents; `findById` is `List.find?`
  on the id field, `findByIdAndUpdate`/`save` map over the list replacing
  the document with the matching id.
* The pre-save hook of `eventSchema`, which recomputes `attendeeCount`
  from `attendees.length`, is the function `saveHook`; it is applied
  exactly where the source calls `event.save()` (join, leave, create) and
  deliberately NOT on the `findByIdAndUpdate` path (Mongoose query
  updates do not run document save middleware).
* Handlers that mutate state are modelled as functions from the world to
  `World × Result`; all early-return error paths of the source happen
  before any write, so they return the world unchanged.
-/

abbrev UserId := Nat
abbrev EventId := Nat

/-- Event document, after `models/Event.js` (`eventSchema`). -/
structure Event where
  id : EventId
  title : String
  description : String
  location : String
  dateTime : Int
  creator : UserId
  creatorName : String
  category : String
  status : String
  attendees : List UserId
  attendeeCount : Nat
  maxAttendees : Option Nat
  deriving Repr, DecidableEq

/-- User document, after `models/User.js` (the facets the core touches). -/
structure User where
  id : UserId
  name : String
  joinedEvents : List EventId
  createdEvents : List EventId
  deriving Repr, DecidableEq

/-- The two collections of the document store. -/
structure World where
  events : List Event
  users : List User
  deriving Repr, DecidableEq

/-- Embeds `Event.findById`. -/
def findEvent (w : World) (eid : EventId) : Option Event :=
  w.events.find? (fun e => e.id == eid)

/-- Embeds the pre-save hook of `eventSchema`, which assigns the length of
`attendees` to `attendeeCount` before every document save. -/
def saveHook (e : Event) : Event :=
  { e with attendeeCount := e.attendees.length }

/-- Writes an event document back into the collection (the store replaces the
document whose id matches). -/
def putEvent (w : World) (e : Event) : World :=
  { w with events := w.events.map (fun x => if x.id == e.id then e else x) }

/-- Embeds `User.findByIdAndUpdate(uid, { $push: { joinedEvents: eid } })`. -/
def pushJoined (w : World) (uid : UserId) (eid : EventId) : World :=
  { w with
    users := w.users.map (fun u =>
      if u.id == uid then { u with joinedEvents := u.joinedEvents ++ [eid] } else u) }

/-- Embeds `User.findByIdAndUpdate(uid, { $pull: { joinedEvents: eid } })`;
`$pull` removes every matching element. -/
def pullJoined (w : World) (uid : UserId) (eid : EventId) : World :=
  { w with
    users := w.users.map (fun u =>
      if u.id == uid then { u with joinedEvents := u.joinedEvents.filter (fun x => x != eid) } else u) }

/-- Embeds `User.findByIdAndUpdate(uid, { $push: { createdEvents: eid } })`. -/
def pushCreated (w : World) (uid : UserId) (eid : EventId) : World :=
  { w with
    users := w.users.map (fun u =>
      if u.id == uid then { u with createdEvents := u.createdEvents ++ [eid] } else u) }

/-- Embeds the capacity test of the join handler:
`event.maxAttendees && event.attendees.length >= event.maxAttendees`.
A `null` (here `none`) or `0` value of `maxAttendees` is falsy in
JavaScript, so no capacity check happens then. -/
def capacityFull (e : Event) : Bool :=
  match e.maxAttendees with
  | none => false
  | some m => (m != 0) && (e.attendees.length ≥ m)

inductive JoinResult where
  | notFound
  | alreadyMember
  | capacityExceeded
  | joined
  deriving Repr, DecidableEq

/-- Embeds the `POST /:id/join` handler: look the event up, reject when the
user is already an attendee, reject when the event is full, otherwise push
the user onto `attendees`, save (running the count hook), and push the event
onto the joining user `joinedEvents` list. Every error path returns before
any write. -/
def joinRoute (w : World) (eid : EventId) (uid : UserId) : World × JoinResult :=
  match findEvent w eid with
  | none => (w, .notFound)
  | some e =>
    if e.attendees.contains uid then (w, .alreadyMember)
    else if capacityFull e then (w, .capacityExceeded)
    else
      let e2 := saveHook { e with attendees := e.attendees ++ [uid] }
      (pushJoined (putEvent w e2) uid eid, .joined)

inductive LeaveResult where
  | notFound
  | notMember
  | left
  deriving Repr, DecidableEq

/-- Embeds the `POST /:id/leave` handler: look the event up, reject when the
user is not an attendee, otherwise filter the user out of `attendees`, save
(running the count hook), and pull the event from the user
`joinedEvents` list. -/
def leaveRoute (w : World) (eid : EventId) (uid : UserId) : World × LeaveResult :=
  match findEvent w eid with
  | none => (w, .notFound)
  | some e =>
    if !(e.attendees.contains uid) then (w, .notMember)
    else
      let e2 := saveHook { e with attendees := e.attendees.filter (fun a => a != uid) }
      (pullJoined (putEvent w e2) uid eid, .left)

/-- The membership invariant of the specification: a user id appears in an
event attendee list exactly when the event id appears in that user
`joinedEvents` list. -/
def MembershipInv (w : World) : Prop :=
  ∀ e ∈ w.events, ∀ u ∈ w.users, (u.id ∈ e.attendees ↔ e.id ∈ u.joinedEvents)

instance (w : World) : Decidable (MembershipInv w) := by
  unfold MembershipInv; infer_instance

/-! ### Update route (`PUT /:id`) -/

/-- Request body of the update route. The source assigns `updates = req.body`
and hands the whole object to `findByIdAndUpdate`, so every schema path that
the body carries is applied; the body is therefore modelled with every
schema-visible field optional. Fields outside the schema are dropped by
Mongoose strict mode and are not modelled. -/
structure UpdateBody where
  title : Option String := none
  description : Option String := none
  location : Option String := none
  dateTime : Option Int := none
  category : Option String := none
  status : Option String := none
  attendees : Option (List UserId) := none
  attendeeCount : Option Nat := none
  maxAttendees : Option Nat := none
  creatorName : Option String := none
  creator : Option UserId := none
  deriving Repr, DecidableEq

/-- Whitespace trimming on the character list of a string; the character
level rendering of the `.trim()` sanitizer and of `trim: true` in the
schemas. -/
def trimChars (l : List Char) : List Char :=
  ((l.dropWhile Char.isWhitespace).reverse.dropWhile Char.isWhitespace).reverse

/-- Trimmed copy of a string. -/
def strTrim (s : String) : String := String.mk (trimChars s.data)

/-- Length check used by the express-validator chains: the value is trimmed
by the `.trim()` sanitizer and its length bounded. -/
def lenBetween (lo hi : Nat) (s : String) : Bool :=
  lo ≤ (strTrim s).length && (strTrim s).length ≤ hi

/-- Embeds the express-validator middleware of the update route: optional
`title` (3 to 100 chars), `description` (10 to 1000), `location` (3 to 200),
`dateTime` (a valid instant strictly in the future). The update middleware
has no check for `category` or for any other field. -/
def updateBodyValid (now : Int) (b : UpdateBody) : Bool :=
  (match b.title with | none => true | some s => lenBetween 3 100 s) &&
  (match b.description with | none => true | some s => lenBetween 10 1000 s) &&
  (match b.location with | none => true | some s => lenBetween 3 200 s) &&
  (match b.dateTime with | none => true | some d => now < d)

def categoryEnum : List String :=
  ["conference", "workshop", "meetup", "webinar", "social", "other"]

def statusEnum : List String :=
  ["upcoming", "ongoing", "completed", "cancelled"]

/-- Embeds the schema validators Mongoose runs on the updated paths because
of `runValidators: true`: enum membership for `category` and `status`,
`min: 1` for `maxAttendees`, `dateTime` strictly in the future. String
length bounds re-run too but the middleware checked them already;
`attendeeCount` has `min: 0`, which a natural number always satisfies. -/
def runValidatorsOk (now : Int) (b : UpdateBody) : Bool :=
  (match b.title with | none => true | some s => lenBetween 3 100 s) &&
  (match b.description with | none => true | some s => lenBetween 10 1000 s) &&
  (match b.location with | none => true | some s => lenBetween 3 200 s) &&
  (match b.dateTime with | none => true | some d => now < d) &&
  (match b.category with | none => true | some c => categoryEnum.contains c) &&
  (match b.status with | none => true | some s => statusEnum.contains s) &&
  (match b.maxAttendees with | none => true | some m => 1 ≤ m)

/-- Embeds `findByIdAndUpdate(id, updates)`: every field present in the body
is `$set` on the document; the `.trim()` sanitizer has already trimmed the
three validated text fields. The save middleware does not run here, so
`attendeeCount` is whatever the body says or the stored value. -/
def applyUpdates (e : Event) (b : UpdateBody) : Event :=
  { e with
    title := (b.title.map strTrim).getD e.title
    description := (b.description.map strTrim).getD e.description
    location := (b.location.map strTrim).getD e.location
    dateTime := b.dateTime.getD e.dateTime
    category := b.category.getD e.category
    status := b.status.getD e.status
    attendees := b.attendees.getD e.attendees
    attendeeCount := b.attendeeCount.getD e.attendeeCount
    maxAttendees := (match b.maxAttendees with | none => e.maxAttendees | some m => some m)
    creatorName := b.creatorName.getD e.creatorName
    creator := b.creator.getD e.creator }

inductive UpdateResult where
  | validationFailed
  | notFound
  | forbidden
  | storageError
  | updated
  deriving Repr, DecidableEq

/-- Embeds the `PUT /:id` handler in source order: the validation middleware
result is checked first, then the event is looked up, then the creator check
runs, then `findByIdAndUpdate` applies the whole body (a schema-validator
failure there is caught as a 500, `storageError`). Every error path returns
before any write. -/
def updateRoute (now : Int) (w : World) (eid : EventId) (actor : UserId)
    (b : UpdateBody) : World × UpdateResult :=
  if !(updateBodyValid now b) then (w, .validationFailed)
  else
    match findEvent w eid with
    | none => (w, .notFound)
    | some e =>
      if e.creator != actor then (w, .forbidden)
      else if !(runValidatorsOk now b) then (w, .storageError)
      else (putEvent w (applyUpdates e b), .updated)

/-! ### Create route (`POST /`) -/

/-- Request body of the create route: the handler destructures exactly
`title`, `description`, `location`, `dateTime`, `category`. -/
structure CreateBody where
  title : String
  description : String
  location : String
  dateTime : Int
  category : Option String := none
  deriving Repr, DecidableEq

/-- Embeds the express-validator middleware of the create route: required
`title`/`description`/`location` with the same length bounds, `dateTime` a
valid instant strictly in the future, `category` optional but restricted to
the enumeration when present. -/
def createBodyValid (now : Int) (b : CreateBody) : Bool :=
  lenBetween 3 100 b.title &&
  lenBetween 10 1000 b.description &&
  lenBetween 3 200 b.location &&
  (now < b.dateTime) &&
  (match b.category with | none => true | some c => categoryEnum.contains c)

inductive CreateResult where
  | validationFailed
  | created
  deriving Repr, DecidableEq

/-- Embeds `new Event({...})` followed by `event.save()`: schema defaults
fill `status`, `attendees`, `attendeeCount` and `maxAttendees`, the handler
writes the category with a JavaScript or-fallback to the literal other, so
an absent or empty string
also falls back), and the save hook recomputes the count. -/
def newEventDoc (newId : EventId) (actor : UserId) (actorName : String)
    (b : CreateBody) : Event :=
  saveHook
    { id := newId
      title := strTrim b.title
      description := strTrim b.description
      location := strTrim b.location
      dateTime := b.dateTime
      creator := actor
      creatorName := actorName
      category := (match b.category with | none => "other" | some c => if c = "" then "other" else c)
      status := "upcoming"
      attendees := []
      attendeeCount := 0
      maxAttendees := none }

/-- Embeds the `POST /` handler: validate, insert the new event document,
then push its id onto the creator `createdEvents` list. No user
`joinedEvents` list is touched anywhere on this path. -/
def createRoute (now : Int) (w : World) (actor : UserId) (actorName : String)
    (newId : EventId) (b : CreateBody) : World × CreateResult :=
  if !(createBodyValid now b) then (w, .validationFailed)
  else
    let e := newEventDoc newId actor actorName b
    (pushCreated { w with events := w.events ++ [e] } actor newId, .created)

/-! ### Query planner (`GET /`) -/

/-- Milliseconds in a day, the unit conversion between calendar-day numbers
and `Date` instants. -/
def msPerDay : Int := 86400000

/-- Day number since 1970-01-01 of a proleptic Gregorian civil date,
the standard era-based algorithm; it ties the concrete day numbers used
below to calendar dates. Evaluated only at concrete dates. -/
def daysFromCivil (y m d : Int) : Int :=
  let y2 := if m ≤ 2 then y - 1 else y
  let era := (if 0 ≤ y2 then y2 else y2 - 399) / 400
  let yoe := y2 - era * 400
  let doy := (153 * (m + (if 2 < m then -3 else 9)) + 2) / 5 + d - 1
  let doe := yoe * 365 + yoe / 4 - yoe / 100 + doy
  era * 146097 + doe - 719468

/-- Weekday index of a day number, 0 = Sunday, as `Date.prototype.getDay`
reports it (1970-01-01 was a Thursday, index 4). -/
def jsGetDay (d : Int) : Int := (d + 4) % 7

/-- Embeds the `current_week` branch of the date filter:
`startOfWeek = today - today.getDay()` in days. -/
def weekStart (todayDays : Int) : Int := todayDays - jsGetDay todayDays

/-- Embeds the predicate `{ dateTime: { $gte: startOfWeek, $lt: endOfWeek } }`
that the `current_week` branch installs, on an instant `t` in milliseconds. -/
def currentWeekPred (todayDays t : Int) : Bool :=
  decide (weekStart todayDays * msPerDay ≤ t) &&
  decide (t < (weekStart todayDays + 7) * msPerDay)

/-- Sort key relation of `.sort({ dateTime: -1 })`: later instants first. -/
def dateDescRel (a b : Event) : Prop := b.dateTime ≤ a.dateTime

instance : DecidableRel dateDescRel := fun a b => by
  unfold dateDescRel; infer_instance

instance : IsTotal Event dateDescRel :=
  ⟨fun a b => le_total b.dateTime a.dateTime⟩

instance : IsTrans Event dateDescRel :=
  ⟨fun _ _ _ hab hbc => le_trans hbc hab⟩

/-- The sorted read `.sort({ dateTime: -1 })`, modelled as an insertion
sort under `dateDescRel`. -/
def sortByDateDesc (l : List Event) : List Event := l.insertionSort dateDescRel

/-- Embeds `Math.ceil(total / limit)` on nonnegative integers with a
positive divisor. -/
def jsCeilDiv (a b : Nat) : Nat := (a + b - 1) / b

/-- Response shape of the list route: the page of events plus the
`pagination` object `{ current, pages, total }`. -/
structure ListResult where
  events : List Event
  current : Nat
  pages : Nat
  total : Nat
  deriving Repr, DecidableEq

/-- Embeds the query execution of the `GET /` handler with already-numeric
page and limit: filter, sort by dateTime descending, `skip((page-1)*limit)`,
`limit(limit)` (MongoDB applies skip before limit whatever the chaining
order), and `countDocuments` against the full predicate. -/
def listEvents (evs : List Event) (pred : Event → Bool) (page limit : Nat) :
    ListResult :=
  let matched := evs.filter pred
  let sorted := sortByDateDesc matched
  { events := (sorted.drop ((page - 1) * limit)).take limit
    current := page
    pages := jsCeilDiv matched.length limit
    total := matched.length }

/-! ### Query-string number handling of the list route -/

/-- Models the JavaScript numeric coercion that `limit * 1` and
`(page - 1) * limit` apply to a query-string value, restricted to the
inputs considered here: an all-digit string is its value, a blank string
coerces to 0, anything else is NaN, modelled as `none`. -/
def jsToNumber (s : String) : Option Int :=
  let t := trimChars s.data
  if t.isEmpty then some 0
  else if t.all Char.isDigit then
    some ((t.foldl (fun acc c => acc * 10 + (c.toNat - 48)) 0 : Nat) : Int)
  else none

/-- Embeds the destructuring default `page = 1`: it fires only when the
query parameter is absent; a present value is kept verbatim. -/
def pageParam (q : Option String) : Option Int :=
  match q with
  | none => some 1
  | some s => jsToNumber s

/-- Embeds the destructuring default `limit = 10`. -/
def limitParam (q : Option String) : Option Int :=
  match q with
  | none => some 10
  | some s => jsToNumber s

/-- NaN-propagating subtraction on JavaScript numbers. -/
def jsSub (a b : Option Int) : Option Int :=
  match a, b with
  | some x, some y => some (x - y)
  | _, _ => none

/-- NaN-propagating multiplication on JavaScript numbers. -/
def jsMul (a b : Option Int) : Option Int :=
  match a, b with
  | some x, some y => some (x * y)
  | _, _ => none

/-- The value the handler passes to `.limit(limit * 1)`. -/
def effLimit (limitQ : Option String) : Option Int :=
  jsMul (limitParam limitQ) (some 1)

/-- The value the handler passes to `.skip((page - 1) * limit)`. -/
def effSkip (pageQ limitQ : Option String) : Option Int :=
  jsMul (jsSub (pageParam pageQ) (some 1)) (limitParam limitQ)

/-! ### Interleaving model of two concurrent join requests -/

/-- One in-flight `POST /:id/join` handler. The source performs two separate
store operations: the `findById` read and the `save` write; the membership
and capacity checks run in between on the snapshot the read returned. -/
structure JoinSession where
  uid : UserId
  snapshot : Option Event := none
  result : Option JoinResult := none
  deriving Repr, DecidableEq

/-- One atomic step of a join session against the stored event document:
first step takes the snapshot (`findById`), second step checks the snapshot
and, when the checks pass, writes the snapshot-derived document back
(`save`) and reports success. -/
def sessionStep (store : Event) (s : JoinSession) : Event × JoinSession :=
  match s.snapshot, s.result with
  | none, _ => (store, { s with snapshot := some store })
  | some l, none =>
      if l.attendees.contains s.uid then
        (store, { s with result := some .alreadyMember })
      else if capacityFull l then
        (store, { s with result := some .capacityExceeded })
      else
        (saveHook { l with attendees := l.attendees ++ [s.uid] },
         { s with result := some .joined })
  | some _, some _ => (store, s)

/-- Runs two join sessions under an explicit interleaving: `true` schedules
a step of the first session, `false` a step of the second. -/
def runSchedule : List Bool → Event → JoinSession → JoinSession →
    Event × JoinSession × JoinSession
  | [], st, s1, s2 => (st, s1, s2)
  | b :: rest, st, s1, s2 =>
      if b then
        let p := sessionStep st s1
        runSchedule rest p.1 p.2 s2
      else
        let p := sessionStep st s2
        runSchedule rest p.1 s1 p.2

/-! ### Sample documents used by concrete instantiations -/

/-- Sample event: creator is user 3, two seats, nobody joined yet. -/
def sampleEvent : Event :=
  { id := 1
    title := "Picnic day"
    description := "picnic in the park"
    location := "park"
    dateTime := 500
    creator := 3
    creatorName := "Cam"
    category := "social"
    status := "upcoming"
    attendees := []
    attendeeCount := 0
    maxAttendees := some 2 }

/-- Sample world: the event above plus a bystander user and its creator. -/
def sampleWorld : World :=
  { events := [sampleEvent]
    users := [{ id := 2, name := "Bea", joinedEvents := [], createdEvents := [] },
              { id := 3, name := "Cam", joinedEvents := [], createdEvents := [1] }] }

/-! ### Helper lemmas -/

theorem findEvent_spec {w : World} {eid : EventId} {e : Event}
    (h : findEvent w eid = some e) : e ∈ w.events ∧ e.id = eid := by
  unfold findEvent at h
  refine ⟨List.mem_of_find?_eq_some h, ?_⟩
  have := List.find?_some h
  simpa using this

theorem join_preserves_inv (w : World) (eid : EventId) (uid : UserId)
    (hinv : MembershipInv w) :
    (joinRoute w eid uid).2 = .joined → MembershipInv (joinRoute w eid uid).1 := by
  intro hres
  cases hfind : findEvent w eid with
  | none => simp [joinRoute, hfind] at hres
  | some e =>
    obtain ⟨he, heid⟩ := findEvent_spec hfind
    by_cases hmem : uid ∈ e.attendees
    · simp [joinRoute, hfind, hmem] at hres
    · cases hcap : capacityFull e with
      | true => simp [joinRoute, hfind, hmem, hcap] at hres
      | false =>
        have hgoal :
            (joinRoute w eid uid).1 =
            pushJoined (putEvent w (saveHook { e with attendees := e.attendees ++ [uid] })) uid eid := by
          simp [joinRoute, hfind, hmem, hcap]
        rw [hgoal]
        intro e1 he1 u1 hu1
        simp only [pushJoined, putEvent, List.mem_map] at he1 hu1
        obtain ⟨x, hx, hfx⟩ := he1
        obtain ⟨u, hu, hgu⟩ := hu1
        subst hfx hgu
        by_cases hxid : x.id = eid <;> by_cases huid : u.id = uid
        · simp only [saveHook, heid, hxid, beq_self_eq_true, if_true, huid]
          simp
        · simp only [saveHook, heid, hxid, beq_self_eq_true, if_true, beq_iff_eq, if_neg huid]
          simp only [List.mem_append, List.mem_singleton]
          constructor
          · rintro (h1 | h1)
            · exact heid ▸ (hinv e he u hu).mp h1
            · exact absurd h1 huid
          · intro h1
            exact Or.inl ((hinv e he u hu).mpr (heid ▸ h1))
        · have hne : (x.id == (saveHook { e with attendees := e.attendees ++ [uid] }).id) = false := by
            simp [saveHook, heid, hxid]
          simp only [hne, if_false, huid, beq_self_eq_true, if_true]
          simp only [List.mem_append, List.mem_singleton]
          constructor
          · intro h1
            exact Or.inl ((hinv x hx u hu).mp (huid ▸ h1))
          · rintro (h1 | h1)
            · exact huid ▸ (hinv x hx u hu).mpr h1
            · exact absurd h1 hxid
        · have hne : (x.id == (saveHook { e with attendees := e.attendees ++ [uid] }).id) = false := by
            simp [saveHook, heid, hxid]
          have hnu : (u.id == uid) = false := by simp [huid]
          simp only [hne, if_false, hnu]
          exact hinv x hx u hu

theorem leave_preserves_inv (w : World) (eid : EventId) (uid : UserId)
    (hinv : MembershipInv w) :
    (leaveRoute w eid uid).2 = .left → MembershipInv (leaveRoute w eid uid).1 := by
  intro hres
  cases hfind : findEvent w eid with
  | none => simp [leaveRoute, hfind] at hres
  | some e =>
    obtain ⟨he, heid⟩ := findEvent_spec hfind
    by_cases hmem : uid ∈ e.attendees
    · have hgoal :
          (leaveRoute w eid uid).1 =
          pullJoined (putEvent w (saveHook { e with attendees := e.attendees.filter (fun a => a != uid) })) uid eid := by
        simp [leaveRoute, hfind, hmem]
      rw [hgoal]
      intro e1 he1 u1 hu1
      simp only [pullJoined, putEvent, List.mem_map] at he1 hu1
      obtain ⟨x, hx, hfx⟩ := he1
      obtain ⟨u, hu, hgu⟩ := hu1
      subst hfx hgu
      by_cases hxid : x.id = eid <;> by_cases huid : u.id = uid
      · simp only [saveHook, heid, hxid, beq_self_eq_true, if_true, huid, beq_iff_eq]
        simp [List.mem_filter]
      · simp only [saveHook, heid, hxid, beq_self_eq_true, if_true, beq_iff_eq, if_neg huid]
        simp only [List.mem_filter, bne_iff_ne, ne_eq]
        constructor
        · rintro ⟨h1, -⟩
          exact heid ▸ (hinv e he u hu).mp h1
        · intro h1
          exact ⟨(hinv e he u hu).mpr (heid ▸ h1), huid⟩
      · have hne : (x.id == (saveHook { e with attendees := e.attendees.filter (fun a => a != uid) }).id) = false := by
          simp [saveHook, heid, hxid]
        simp only [hne, if_false, huid, beq_self_eq_true, if_true]
        simp only [List.mem_filter, bne_iff_ne, ne_eq]
        constructor
        · intro h1
          exact ⟨(hinv x hx u hu).mp (huid ▸ h1), hxid⟩
        · rintro ⟨h1, -⟩
          exact huid ▸ (hinv x hx u hu).mpr h1
      · have hne : (x.id == (saveHook { e with attendees := e.attendees.filter (fun a => a != uid) }).id) = false := by
          simp [saveHook, heid, hxid]
        have hnu : (u.id == uid) = false := by simp [huid]
        simp only [hne, if_false, hnu]
        exact hinv x hx u hu
    · simp [leaveRoute, hfind, hmem] at hres

theorem find?_map_update (l : List Event) (eid : EventId) (e e2 : Event)
    (h : l.find? (fun x => x.id == eid) = some e) (hid : e2.id = e.id) :
    (l.map (fun x => if x.id == e2.id then e2 else x)).find? (fun x => x.id == eid) = some e2 := by
  have heid : e.id = eid := by simpa using List.find?_some h
  induction l with
  | nil => simp at h
  | cons a l ih =>
    by_cases ha : a.id = eid
    · rw [List.find?_cons_of_pos _ (by simpa using ha)] at h
      have hae : a = e := by simpa using h
      subst hae
      simp only [List.map_cons]
      rw [if_pos (by simp [hid])]
      exact List.find?_cons_of_pos _ (by simp [hid, heid])
    · rw [List.find?_cons_of_neg _ (by simpa using ha)] at h
      simp only [List.map_cons]
      rw [if_neg (by simp [hid, heid]; exact ha)]
      rw [List.find?_cons_of_neg _ (by simpa using ha)]
      exact ih h

theorem findEvent_after_join (w : World) (eid : EventId) (uid : UserId) (e e2 : Event)
    (hfind : findEvent w eid = some e) (hid : e2.id = e.id) :
    findEvent (pushJoined (putEvent w e2) uid eid) eid = some e2 := by
  unfold findEvent pushJoined putEvent at *
  exact find?_map_update w.events eid e e2 hfind hid

/-! ### Claim theorems -/

/-- Claim C1: for every event and user, after any successful join or leave
operation completes, the user id is in the event attendee list if and only
if the event id is in the user `joinedEvents` list: both the join path
(which appends on both sides) and the leave path (which removes on both
sides) preserve the membership biconditional. -/
theorem C1_membership_biconditional (w : World) (eid : EventId) (uid : UserId)
    (hinv : MembershipInv w) :
    ((joinRoute w eid uid).2 = .joined → MembershipInv (joinRoute w eid uid).1) ∧
    ((leaveRoute w eid uid).2 = .left → MembershipInv (leaveRoute w eid uid).1) :=
  ⟨join_preserves_inv w eid uid hinv, leave_preserves_inv w eid uid hinv⟩

/-- Witness for C1 on a concrete world satisfying the invariant. -/
theorem C1_membership_biconditional_witness :
    ((joinRoute sampleWorld 1 2).2 = .joined → MembershipInv (joinRoute sampleWorld 1 2).1) ∧
    ((leaveRoute sampleWorld 1 2).2 = .left → MembershipInv (leaveRoute sampleWorld 1 2).1) :=
  C1_membership_biconditional sampleWorld 1 2 (by decide)

/-- Claim C3: join fails with AlreadyMember when the user is already an
attendee, fails with CapacityExceeded when `maxAttendees` is set (a valid
stored value is at least 1) and the attendee count has reached it, and
otherwise appends the user, recomputes `attendeeCount`, and appends the
event to the user `joinedEvents` list; every failure leaves the world
unchanged, and a second join by the same user fails with AlreadyMember
without changing the world. -/
theorem C3_join_error_semantics (w : World) (eid : EventId) (uid : UserId) (e : Event)
    (hfind : findEvent w eid = some e)
    (hmax0 : e.maxAttendees ≠ some 0) :
    (uid ∈ e.attendees → joinRoute w eid uid = (w, .alreadyMember)) ∧
    (uid ∉ e.attendees → (∃ m, e.maxAttendees = some m ∧ m ≤ e.attendees.length) →
      joinRoute w eid uid = (w, .capacityExceeded)) ∧
    (uid ∉ e.attendees → ¬(∃ m, e.maxAttendees = some m ∧ m ≤ e.attendees.length) →
      joinRoute w eid uid =
        (pushJoined (putEvent w (saveHook { e with attendees := e.attendees ++ [uid] })) uid eid,
         .joined) ∧
      (saveHook { e with attendees := e.attendees ++ [uid] }).attendeeCount
        = e.attendees.length + 1) ∧
    (∀ w2, joinRoute w eid uid = (w2, .joined) → joinRoute w2 eid uid = (w2, .alreadyMember)) := by
  refine ⟨?_, ?_, ?_, ?_⟩
  · intro hmem
    simp [joinRoute, hfind, hmem]
  · rintro hmem ⟨m, hm, hle⟩
    have hcap : capacityFull e = true := by
      have : m ≠ 0 := fun h0 => hmax0 (h0 ▸ hm)
      simp [capacityFull, hm, this]
      exact hle
    simp [joinRoute, hfind, hmem, hcap]
  · intro hmem hnex
    have hcap : capacityFull e = false := by
      unfold capacityFull
      cases hm : e.maxAttendees with
      | none => rfl
      | some m =>
        have : ¬ m ≤ e.attendees.length := fun hle => hnex ⟨m, hm, hle⟩
        simp [this]
    refine ⟨by simp [joinRoute, hfind, hmem, hcap], ?_⟩
    simp [saveHook]
  · intro w2 hrun
    cases hfind2 : findEvent w eid with
    | none => simp [joinRoute, hfind2] at hrun
    | some e' =>
      have he' : e' = e := by rw [hfind] at hfind2; exact (Option.some_inj.mp hfind2).symm
      subst he'
      by_cases hmem : uid ∈ e'.attendees
      · simp [joinRoute, hfind2, hmem] at hrun
      · cases hcap : capacityFull e' with
        | true =>
          simp [joinRoute, hfind2, hmem, hcap] at hrun
        | false =>
          have hw2 : w2 = pushJoined (putEvent w (saveHook { e' with attendees := e'.attendees ++ [uid] })) uid eid := by
            have := hrun
            simp [joinRoute, hfind2, hmem, hcap] at this
            exact this.symm
          have hfind3 : findEvent w2 eid = some (saveHook { e' with attendees := e'.attendees ++ [uid] }) := by
            rw [hw2]
            exact findEvent_after_join w eid uid e' _ hfind2 rfl
          have hmem3 : uid ∈ (saveHook { e' with attendees := e'.attendees ++ [uid] }).attendees := by
            simp [saveHook]
          simp [joinRoute, hfind3, hmem3]

/-- Witness for C3 on the concrete sample world. -/
theorem C3_join_error_semantics_witness :
    (2 ∈ sampleEvent.attendees → joinRoute sampleWorld 1 2 = (sampleWorld, .alreadyMember)) ∧
    (2 ∉ sampleEvent.attendees →
      (∃ m, sampleEvent.maxAttendees = some m ∧ m ≤ sampleEvent.attendees.length) →
      joinRoute sampleWorld 1 2 = (sampleWorld, .capacityExceeded)) ∧
    (2 ∉ sampleEvent.attendees →
      ¬(∃ m, sampleEvent.maxAttendees = some m ∧ m ≤ sampleEvent.attendees.length) →
      joinRoute sampleWorld 1 2 =
        (pushJoined (putEvent sampleWorld
          (saveHook { sampleEvent with attendees := sampleEvent.attendees ++ [2] })) 2 1,
         .joined) ∧
      (saveHook { sampleEvent with attendees := sampleEvent.attendees ++ [2] }).attendeeCount
        = sampleEvent.attendees.length + 1) ∧
    (∀ w2, joinRoute sampleWorld 1 2 = (w2, .joined) → joinRoute w2 1 2 = (w2, .alreadyMember)) :=
  C3_join_error_semantics sampleWorld 1 2 sampleEvent (by decide) (by decide)

/-- Event used by the update-route evaluations: creator is user 4 and
nobody has joined. -/
def c2Event : Event :=
  { id := 5
    title := "Team breakfast"
    description := "monthly team breakfast"
    location := "cafe"
    dateTime := 2000
    creator := 4
    creatorName := "Dana"
    category := "social"
    status := "upcoming"
    attendees := []
    attendeeCount := 0
    maxAttendees := none }

/-- World holding `c2Event` and its creator. -/
def c2World : World :=
  { events := [c2Event]
    users := [{ id := 4, name := "Dana", joinedEvents := [], createdEvents := [5] }] }

/-- Claim C2, evaluated at the failing input: a creator update whose body
carries `attendeeCount` is accepted by the update route and stores a count
of 5 on an event whose attendee list is empty, because `findByIdAndUpdate`
applies the whole request body and does not run the pre-save hook. The
claim says `attendeeCount` always equals the attendee-list length and can
never be set independently through the update field set. -/
theorem C2_attendeeCount_settable_via_update :
    (updateRoute 1000 c2World 5 4 { attendeeCount := some 5 }).2 = .updated ∧
    findEvent (updateRoute 1000 c2World 5 4 { attendeeCount := some 5 }).1 5 =
      some { c2Event with attendeeCount := 5 } ∧
    ({ c2Event with attendeeCount := 5 } : Event).attendeeCount ≠
      ({ c2Event with attendeeCount := 5 } : Event).attendees.length := by
  decide

/-- Event sitting one below its capacity ceiling, used by the race model. -/
def raceEvent : Event :=
  { id := 9
    title := "Last seat"
    description := "two requests race for one seat"
    location := "hall"
    dateTime := 100
    creator := 1
    creatorName := "Ann"
    category := "other"
    status := "upcoming"
    attendees := []
    attendeeCount := 0
    maxAttendees := some 1 }

/-- Claim C4, evaluated at the failing schedule: the event sits at
`maxAttendees - 1`; under the interleaving read1, read2, write1, write2 the
two join handlers both pass the capacity check on their stale snapshots and
both report success, because the check and the append are two separate
store operations, not one indivisible step. The claim says both can never
succeed. -/
theorem C4_concurrent_joins_both_succeed :
    raceEvent.maxAttendees = some (raceEvent.attendees.length + 1) ∧
    ((runSchedule [true, false, true, false] raceEvent
        { uid := 7 } { uid := 8 }).2.1.result = some .joined ∧
     (runSchedule [true, false, true, false] raceEvent
        { uid := 7 } { uid := 8 }).2.2.result = some .joined) := by
  decide

/-- Claim C5, counterexample: the validation middleware runs before the
creator check, so a non-creator (user 2, while the creator is 3) sending an
invalid field (a 2-character title) receives ValidationError, not
Forbidden. -/
theorem C5_counterexample_validation_precedes_forbidden :
    sampleEvent.creator ≠ 2 ∧
    updateRoute 1000 sampleWorld 1 2 { title := some "ab" } =
      (sampleWorld, .validationFailed) ∧
    UpdateResult.validationFailed ≠ UpdateResult.forbidden := by
  decide

/-- Claim C5 as amended: for an existing event and an actor who is not its
creator, the update route never mutates the world; it fails with Forbidden
exactly when the supplied fields pass the route validation, and with
ValidationError (not Forbidden) when a supplied field is invalid. -/
theorem C5_noncreator_update_behaviour (now : Int) (w : World) (eid : EventId)
    (actor : UserId) (b : UpdateBody) (e : Event)
    (hfind : findEvent w eid = some e) (hact : e.creator ≠ actor) :
    (updateRoute now w eid actor b).1 = w ∧
    (updateBodyValid now b = true → (updateRoute now w eid actor b).2 = .forbidden) ∧
    (updateBodyValid now b = false → (updateRoute now w eid actor b).2 = .validationFailed) := by
  have hbne : (e.creator != actor) = true := by simp [hact]
  cases hv : updateBodyValid now b with
  | true =>
    refine ⟨?_, fun _ => ?_, fun hf => by simp [hv] at hf⟩ <;>
      simp [updateRoute, hv, hfind, hbne]
  | false =>
    refine ⟨?_, fun ht => by simp [hv] at ht, fun _ => ?_⟩ <;>
      simp [updateRoute, hv]

/-- Witness for the amended C5 at a concrete non-creator request. -/
theorem C5_noncreator_update_behaviour_witness :
    (updateRoute 1000 sampleWorld 1 2 { title := some "ab" }).1 = sampleWorld ∧
    (updateBodyValid 1000 { title := some "ab" } = true →
      (updateRoute 1000 sampleWorld 1 2 { title := some "ab" }).2 = .forbidden) ∧
    (updateBodyValid 1000 { title := some "ab" } = false →
      (updateRoute 1000 sampleWorld 1 2 { title := some "ab" }).2 = .validationFailed) :=
  C5_noncreator_update_behaviour 1000 sampleWorld 1 2 { title := some "ab" }
    sampleEvent (by decide) (by decide)

/-- Claim C6, evaluated at the failing input: a creator update whose body
carries `status` is accepted and changes `status`, because the handler
passes the whole request body to `findByIdAndUpdate`. The claim says an
update applies only title, description, location, dateTime and category,
and leaves every other field unchanged for every request body. -/
theorem C6_update_applies_other_fields :
    (updateRoute 1000 c2World 5 4 { status := some "cancelled" }).2 = .updated ∧
    findEvent (updateRoute 1000 c2World 5 4 { status := some "cancelled" }).1 5 =
      some { c2Event with status := "cancelled" } ∧
    ({ c2Event with status := "cancelled" } : Event).status ≠ c2Event.status := by
  decide

/-- Event number `i` of the 25-event pagination scenario; later instants
carry smaller `i`, so descending order by `dateTime` lists them 1 to 25. -/
def c7Event (i : Nat) : Event :=
  { id := i
    title := "Event"
    description := "an event in the pagination scenario"
    location := "venue"
    dateTime := 1000 - (i : Int)
    creator := 1
    creatorName := "Ann"
    category := "other"
    status := "upcoming"
    attendees := []
    attendeeCount := 0
    maxAttendees := none }

/-- The 25 matching events of the pagination scenario. -/
def c7Events : List Event := (List.range 25).map (fun i => c7Event (i + 1))

/-- Claim C7: the list route sorts matches by `dateTime` descending, skips
`(page-1)*limit` rows, returns at most `limit` rows, and reports `total`
equal to the number of matches and `pages` equal to the ceiling of
`total / limit` (characterized by the two inequalities), all computed
before pagination; with 25 matching events, `limit = 10` and `page = 2`
return events 11 to 20 and pagination current 2, pages 3, total 25. -/
theorem C7_pagination (evs : List Event) (pred : Event → Bool) (page limit : Nat)
    (hp : 1 ≤ page) (hl : 1 ≤ limit) :
    (listEvents evs pred page limit).events =
      ((sortByDateDesc (evs.filter pred)).drop ((page - 1) * limit)).take limit ∧
    List.Sorted dateDescRel (sortByDateDesc (evs.filter pred)) ∧
    (sortByDateDesc (evs.filter pred)).Perm (evs.filter pred) ∧
    (listEvents evs pred page limit).events.length ≤ limit ∧
    (listEvents evs pred page limit).current = page ∧
    (listEvents evs pred page limit).total = (evs.filter pred).length ∧
    ((listEvents evs pred page limit).total ≤ limit * (listEvents evs pred page limit).pages ∧
      limit * (listEvents evs pred page limit).pages <
        (listEvents evs pred page limit).total + limit) ∧
    listEvents c7Events (fun _ => true) 2 10 =
      { events := (List.range 10).map (fun i => c7Event (i + 11))
        current := 2
        pages := 3
        total := 25 } := by
  refine ⟨rfl, List.sorted_insertionSort _ _, List.perm_insertionSort _ _, ?_, rfl, rfl, ?_, by decide⟩
  · simp [listEvents, List.length_take]
  · simp only [listEvents, jsCeilDiv]
    set t := (evs.filter pred).length with ht
    have h1 := Nat.div_add_mod (t + limit - 1) limit
    have h2 : (t + limit - 1) % limit < limit := Nat.mod_lt _ (by omega)
    set q := (t + limit - 1) / limit with hq
    set r := (t + limit - 1) % limit with hr
    generalize hP : limit * q = P at h1 ⊢
    omega

/-- Witness for C7 at the concrete 25-event scenario. -/
theorem C7_pagination_witness :
    (listEvents c7Events (fun _ => true) 2 10).events =
      ((sortByDateDesc (c7Events.filter (fun _ => true))).drop ((2 - 1) * 10)).take 10 ∧
    List.Sorted dateDescRel (sortByDateDesc (c7Events.filter (fun _ => true))) ∧
    (sortByDateDesc (c7Events.filter (fun _ => true))).Perm (c7Events.filter (fun _ => true)) ∧
    (listEvents c7Events (fun _ => true) 2 10).events.length ≤ 10 ∧
    (listEvents c7Events (fun _ => true) 2 10).current = 2 ∧
    (listEvents c7Events (fun _ => true) 2 10).total = (c7Events.filter (fun _ => true)).length ∧
    ((listEvents c7Events (fun _ => true) 2 10).total ≤
        10 * (listEvents c7Events (fun _ => true) 2 10).pages ∧
      10 * (listEvents c7Events (fun _ => true) 2 10).pages <
        (listEvents c7Events (fun _ => true) 2 10).total + 10) ∧
    listEvents c7Events (fun _ => true) 2 10 =
      { events := (List.range 10).map (fun i => c7Event (i + 11))
        current := 2
        pages := 3
        total := 25 } :=
  C7_pagination c7Events (fun _ => true) 2 10 (by decide) (by decide)

/-- Claim C8: with `dateFilter = current_week` the installed predicate is
the Sunday-anchored 7-day half-open window containing the current calendar
day (the start of the window has weekday index 0 and the window contains
today); for now on 2024-03-14, a Thursday, the window is exactly
2024-03-10T00:00Z inclusive to 2024-03-17T00:00Z exclusive. The server
clock is modelled in UTC, as the specification stipulates for the
scenario. -/
theorem C8_current_week_window :
    (∀ d : Int, jsGetDay (weekStart d) = 0 ∧ weekStart d ≤ d ∧ d < weekStart d + 7) ∧
    (∀ d t : Int, currentWeekPred d t = true ↔
      (weekStart d * msPerDay ≤ t ∧ t < (weekStart d + 7) * msPerDay)) ∧
    (daysFromCivil 2024 3 14 = 19796 ∧ jsGetDay (daysFromCivil 2024 3 14) = 4 ∧
      daysFromCivil 2024 3 10 = 19792 ∧ daysFromCivil 2024 3 17 = 19799 ∧
      weekStart (daysFromCivil 2024 3 14) = daysFromCivil 2024 3 10 ∧
      weekStart (daysFromCivil 2024 3 14) + 7 = daysFromCivil 2024 3 17) ∧
    (∀ t : Int, currentWeekPred (daysFromCivil 2024 3 14) t = true ↔
      (daysFromCivil 2024 3 10 * msPerDay ≤ t ∧ t < daysFromCivil 2024 3 17 * msPerDay)) := by
  refine ⟨?_, ?_, by decide, ?_⟩
  · intro d
    simp only [jsGetDay, weekStart]
    omega
  · intro d t
    simp [currentWeekPred]
  · intro t
    have h14 : weekStart (daysFromCivil 2024 3 14) = 19792 := by decide
    have h10 : daysFromCivil 2024 3 10 = (19792 : Int) := by decide
    have h17 : daysFromCivil 2024 3 17 = (19799 : Int) := by decide
    rw [h10, h17]
    simp only [currentWeekPred, h14, Bool.and_eq_true, decide_eq_true_eq, msPerDay]
    omega

/-- Claim C9, counterexample: a malformed page parameter is not coerced to
the default: the destructuring default applies only to an absent parameter,
so page abc yields NaN for the skip computation instead of the 0 that the
default page 1 would give, and the limit parameter behaves the same way. -/
theorem C9_counterexample_malformed_page_not_defaulted :
    jsToNumber "abc" = none ∧
    pageParam (some "abc") = none ∧
    effSkip (some "abc") (some "10") = none ∧
    effLimit (some "abc") = none ∧
    effSkip none (some "10") = some 0 ∧
    effSkip (some "abc") (some "10") ≠ effSkip none (some "10") := by
  decide

/-- Claim C9 as amended: the defaults page 1 and limit 10 apply only when
the parameter is absent from the query; a present non-numeric value is not
coerced to the default and instead propagates as NaN through the limit and
skip arithmetic of the handler. -/
theorem C9_defaults_only_when_absent (lq : Option String) (s : String)
    (h : jsToNumber s = none) :
    pageParam none = some 1 ∧ limitParam none = some 10 ∧
    effLimit none = some 10 ∧ effSkip none none = some 0 ∧
    pageParam (some s) = none ∧ effLimit (some s) = none ∧
    effSkip (some s) lq = none := by
  refine ⟨rfl, rfl, rfl, rfl, ?_, ?_, ?_⟩
  · simp [pageParam, h]
  · simp [effLimit, limitParam, h, jsMul]
  · cases hlq : limitParam lq <;>
      simp [effSkip, pageParam, h, jsSub, jsMul, hlq]

/-- Witness for the amended C9 at the malformed value abc. -/
theorem C9_defaults_only_when_absent_witness :
    pageParam none = some 1 ∧ limitParam none = some 10 ∧
    effLimit none = some 10 ∧ effSkip none none = some 0 ∧
    pageParam (some "abc") = none ∧ effLimit (some "abc") = none ∧
    effSkip (some "abc") none = none :=
  C9_defaults_only_when_absent none "abc" (by decide)

/-- Claim C10: a successful create stores an event whose attendee list is
empty and whose count is 0, appends the new id only to the creator
`createdEvents` list, and leaves every `joinedEvents` list in the user
collection unchanged. -/
theorem C10_create_starts_empty (now : Int) (w : World) (actor : UserId)
    (name : String) (newId : EventId) (b : CreateBody)
    (h : createBodyValid now b = true) :
    createRoute now w actor name newId b =
      (pushCreated { w with events := w.events ++ [newEventDoc newId actor name b] } actor newId,
       .created) ∧
    (newEventDoc newId actor name b).attendees = [] ∧
    (newEventDoc newId actor name b).attendeeCount = 0 ∧
    (pushCreated { w with events := w.events ++ [newEventDoc newId actor name b] }
        actor newId).users.map User.joinedEvents = w.users.map User.joinedEvents := by
  refine ⟨by simp [createRoute, h], rfl, rfl, ?_⟩
  simp only [pushCreated, List.map_map]
  refine List.map_congr_left ?_
  intro u _
  by_cases hid : u.id = actor <;> simp [Function.comp, hid]

/-- Valid create request body used by the C10 witness. -/
def c10Body : CreateBody :=
  { title := "Game night"
    description := "an excellent evening of board games"
    location := "club house"
    dateTime := 5000 }

/-- Witness for C10 at a concrete valid create request. -/
theorem C10_create_starts_empty_witness :
    createRoute 1000 sampleWorld 3 "Cam" 11 c10Body =
      (pushCreated { sampleWorld with events := sampleWorld.events ++ [newEventDoc 11 3 "Cam" c10Body] } 3 11,
       .created) ∧
    (newEventDoc 11 3 "Cam" c10Body).attendees = [] ∧
    (newEventDoc 11 3 "Cam" c10Body).attendeeCount = 0 ∧
    (pushCreated { sampleWorld with events := sampleWorld.events ++ [newEventDoc 11 3 "Cam" c10Body] }
        3 11).users.map User.joinedEvents = sampleWorld.users.map User.joinedEvents :=
  C10_create_starts_empty 1000 sampleWorld 3 "Cam" 11 c10Body (by decide)
